import Mathlib

/-!
# Verification of the `Sec-WebSocket-Accept` header implementation

Shallow embedding of `src/header/accept.rs` from rust-websocket: the
`WebSocketAccept` type (a 20-byte SHA-1 digest), its derivation from a
nonce (`WebSocketAccept::new`), parsing from Base64 text (`from_str`)
and serialization back to Base64 (`serialize`).

Bytes are modelled as `Nat` values `< 256`; 32-bit machine words as
`Nat` values reduced modulo `2^32` wherever overflow can occur.
-/

namespace WebSocket

/-- Truncation to a 32-bit word, the implicit wrap-around of `u32`. -/
def w32 (n : Nat) : Nat := n % 4294967296

/-- Left rotation of a 32-bit word `x` by `k` bits (`0 < k < 32`). -/
def rotl (k x : Nat) : Nat := w32 (x <<< k) ||| (x >>> (32 - k))

/-- Big-endian bytes (most significant first) of a 32-bit word. -/
def wordToBytesBE (x : Nat) : List Nat :=
  [(x >>> 24) % 256, (x >>> 16) % 256, (x >>> 8) % 256, x % 256]

/-- Group a byte list into 32-bit big-endian words (16 words per SHA-1 block). -/
def bytesToWords : List Nat → List Nat
  | b0 :: b1 :: b2 :: b3 :: rest =>
    (((b0 * 256 + b1) * 256 + b2) * 256 + b3) :: bytesToWords rest
  | _ => []

/-- SHA-1 message-schedule extension, on the reversed word list
(head of `ws` is the most recent word `w[i-1]`), run `k` more steps. -/
def sha1ExtendRev : Nat → List Nat → List Nat
  | 0, ws => ws
  | k + 1, ws =>
    let a := ws.getD 2 0
    let b := ws.getD 7 0
    let c := ws.getD 13 0
    let d := ws.getD 15 0
    sha1ExtendRev k (rotl 1 (((a ^^^ b) ^^^ c) ^^^ d) :: ws)

/-- The SHA-1 round function `f` for round `i`. -/
def sha1F (i b c d : Nat) : Nat :=
  if i < 20 then (b &&& c) ||| ((b ^^^ 4294967295) &&& d)
  else if i < 40 then (b ^^^ c) ^^^ d
  else if i < 60 then ((b &&& c) ||| (b &&& d)) ||| (c &&& d)
  else (b ^^^ c) ^^^ d

/-- The SHA-1 round constant `K` for round `i`. -/
def sha1K (i : Nat) : Nat :=
  if i < 20 then 0x5A827999
  else if i < 40 then 0x6ED9EBA1
  else if i < 60 then 0x8F1BBCDC
  else 0xCA62C1D6

/-- The 80 SHA-1 rounds over the expanded schedule, starting at round `i`. -/
def sha1Rounds : Nat → List Nat → Nat × Nat × Nat × Nat × Nat → Nat × Nat × Nat × Nat × Nat
  | _, [], st => st
  | i, w :: ws, (a, b, c, d, e) =>
    let temp := w32 (rotl 5 a + sha1F i b c d + e + sha1K i + w)
    sha1Rounds (i + 1) ws (temp, a, rotl 30 b, c, d)

/-- Compress one 64-byte block into the running SHA-1 state. -/
def sha1Compress (h : Nat × Nat × Nat × Nat × Nat) (block : List Nat) :
    Nat × Nat × Nat × Nat × Nat :=
  let ws := (sha1ExtendRev 64 (bytesToWords block).reverse).reverse
  let st := sha1Rounds 0 ws h
  (w32 (h.1 + st.1), w32 (h.2.1 + st.2.1), w32 (h.2.2.1 + st.2.2.1),
   w32 (h.2.2.2.1 + st.2.2.2.1), w32 (h.2.2.2.2 + st.2.2.2.2))

/-- Process `fuel` 64-byte blocks of the (padded) message. -/
def sha1Process : Nat → Nat × Nat × Nat × Nat × Nat → List Nat → Nat × Nat × Nat × Nat × Nat
  | 0, h, _ => h
  | k + 1, h, msg => sha1Process k (sha1Compress h (msg.take 64)) (msg.drop 64)

/-- SHA-1 padding: append `0x80`, zeros up to 56 mod 64, then the
64-bit big-endian bit length of the original message. -/
def sha1Pad (msg : List Nat) : List Nat :=
  let l := msg.length
  let zeros := (119 - l % 64) % 64
  msg ++ 128 :: (List.replicate zeros 0 ++
    [((l * 8) >>> 56) % 256, ((l * 8) >>> 48) % 256, ((l * 8) >>> 40) % 256,
     ((l * 8) >>> 32) % 256, ((l * 8) >>> 24) % 256, ((l * 8) >>> 16) % 256,
     ((l * 8) >>> 8) % 256, (l * 8) % 256])

/-- The SHA-1 digest of a byte sequence: 20 bytes, big-endian per word. -/
def sha1 (msg : List Nat) : List Nat :=
  let padded := sha1Pad msg
  let h := sha1Process (padded.length / 64)
    (0x67452301, 0xEFCDAB89, 0x98BADCFE, 0x10325476, 0xC3D2E1F0) padded
  wordToBytesBE h.1 ++ wordToBytesBE h.2.1 ++ wordToBytesBE h.2.2.1 ++
    wordToBytesBE h.2.2.2.1 ++ wordToBytesBE h.2.2.2.2

/-- UTF-8 encoding of a single character, as bytes. -/
def utf8EncodeCharNat (c : Char) : List Nat :=
  let n := c.toNat
  if n < 128 then [n]
  else if n < 2048 then [192 + n / 64, 128 + n % 64]
  else if n < 65536 then [224 + n / 4096, 128 + (n / 64) % 64, 128 + n % 64]
  else [240 + n / 262144, 128 + (n / 4096) % 64, 128 + (n / 64) % 64, 128 + n % 64]

/-- UTF-8 bytes of a string (`str::as_bytes` in the source). -/
def utf8Bytes (s : String) : List Nat := s.data.flatMap utf8EncodeCharNat

/-- The standard Base64 alphabet (RFC 4648), used by the `base64` crate's
default configuration. -/
def b64Alphabet : List Char :=
  "ABCDEFGHIJKLMNOPQRSTUVWXYZabcdefghijklmnopqrstuvwxyz0123456789+/".data

/-- The Base64 symbol for a 6-bit value. -/
def b64Char (n : Nat) : Char := b64Alphabet.getD n 'A'

/-- The 6-bit value of a Base64 symbol, or `none` for a character outside
the alphabet (including the pad character). -/
def b64Index (c : Char) : Option Nat :=
  let i := b64Alphabet.indexOf c
  if i < 64 then some i else none

/-- Base64 encoding (standard alphabet, with padding) of a byte list. -/
def base64EncodeChars : List Nat → List Char
  | [] => []
  | [a] => [b64Char (a / 4), b64Char (a % 4 * 16), '=', '=']
  | [a, b] => [b64Char (a / 4), b64Char (a % 4 * 16 + b / 16), b64Char (b % 16 * 4), '=']
  | a :: b :: c :: rest =>
    b64Char (a / 4) :: b64Char (a % 4 * 16 + b / 16) :: b64Char (b % 16 * 4 + c / 64) ::
      b64Char (c % 64) :: base64EncodeChars rest

/-- `base64::encode` of the `base64` crate: standard alphabet, padded. -/
def base64Encode (l : List Nat) : String := String.mk (base64EncodeChars l)

/-- Decode a full (non-padded) group of four Base64 symbols into 3 bytes. -/
def decodeBlock4 (c0 c1 c2 c3 : Char) : Option (List Nat) :=
  match b64Index c0, b64Index c1, b64Index c2, b64Index c3 with
  | some v0, some v1, some v2, some v3 =>
    some [v0 * 4 + v1 / 16, v1 % 16 * 16 + v2 / 4, v2 % 4 * 64 + v3]
  | _, _, _, _ => none

/-- Decode the final group of four symbols, which may carry one or two
pad characters. -/
def decodeFinal (c0 c1 c2 c3 : Char) : Option (List Nat) :=
  if c3 = '=' then
    if c2 = '=' then
      match b64Index c0, b64Index c1 with
      | some v0, some v1 => some [v0 * 4 + v1 / 16]
      | _, _ => none
    else
      match b64Index c0, b64Index c1, b64Index c2 with
      | some v0, some v1, some v2 => some [v0 * 4 + v1 / 16, v1 % 16 * 16 + v2 / 4]
      | _, _, _ => none
  else decodeBlock4 c0 c1 c2 c3

/-- Base64 decoding: groups of four symbols, padding allowed only in the
final group; anything else (wrong length, stray characters) fails. -/
def base64DecodeChars : List Char → Option (List Nat)
  | [] => some []
  | c0 :: c1 :: c2 :: c3 :: rest =>
    if rest.isEmpty then decodeFinal c0 c1 c2 c3
    else
      match decodeBlock4 c0 c1 c2 c3, base64DecodeChars rest with
      | some bs, some tail => some (bs ++ tail)
      | _, _ => none
  | _ => none

/-- `base64::decode` of the `base64` crate. -/
def base64Decode (s : String) : Option (List Nat) := base64DecodeChars s.data

/-- Each output byte of `wordToBytesBE` is a byte value. -/
theorem wordToBytesBE_lt (x : Nat) : ∀ b ∈ wordToBytesBE x, b < 256 := by
  intro b hb
  simp only [wordToBytesBE, List.mem_cons, List.not_mem_nil, or_false] at hb
  rcases hb with h | h | h | h <;> omega

/-- The SHA-1 digest always has exactly 20 bytes. -/
theorem sha1_length (msg : List Nat) : (sha1 msg).length = 20 := by
  simp [sha1, wordToBytesBE]

/-- Every byte of the SHA-1 digest is a byte value. -/
theorem sha1_lt (msg : List Nat) : ∀ b ∈ sha1 msg, b < 256 := by
  intro b hb
  simp only [sha1, List.mem_append] at hb
  rcases hb with (((h | h) | h) | h) | h <;> exact wordToBytesBE_lt _ _ h

/-- A successfully decoded Base64 symbol is a 6-bit value. -/
theorem b64Index_lt {c : Char} {v : Nat} (h : b64Index c = some v) : v < 64 := by
  simp only [b64Index] at h
  split at h
  · injection h with h2
    omega
  · exact absurd h (by simp)

/-- Bytes produced by decoding a full Base64 group are byte values. -/
theorem decodeBlock4_lt {c0 c1 c2 c3 : Char} {bs : List Nat}
    (h : decodeBlock4 c0 c1 c2 c3 = some bs) : ∀ b ∈ bs, b < 256 := by
  unfold decodeBlock4 at h
  split at h
  case _ v0 v1 v2 v3 h0 h1 h2 h3 =>
    have l0 := b64Index_lt h0
    have l1 := b64Index_lt h1
    have l2 := b64Index_lt h2
    have l3 := b64Index_lt h3
    injection h with h
    intro b hb
    rw [← h] at hb
    simp only [List.mem_cons, List.not_mem_nil, or_false] at hb
    rcases hb with hb | hb | hb <;> omega
  case _ => exact absurd h (by simp)

/-- Bytes produced by decoding the final Base64 group are byte values. -/
theorem decodeFinal_lt {c0 c1 c2 c3 : Char} {bs : List Nat}
    (h : decodeFinal c0 c1 c2 c3 = some bs) : ∀ b ∈ bs, b < 256 := by
  unfold decodeFinal at h
  split at h
  · split at h
    · split at h
      case _ v0 v1 h0 h1 =>
        have l0 := b64Index_lt h0
        have l1 := b64Index_lt h1
        injection h with h
        intro b hb
        rw [← h] at hb
        simp only [List.mem_cons, List.not_mem_nil, or_false] at hb
        omega
      case _ => exact absurd h (by simp)
    · split at h
      case _ v0 v1 v2 h0 h1 h2 =>
        have l0 := b64Index_lt h0
        have l1 := b64Index_lt h1
        have l2 := b64Index_lt h2
        injection h with h
        intro b hb
        rw [← h] at hb
        simp only [List.mem_cons, List.not_mem_nil, or_false] at hb
        rcases hb with hb | hb <;> omega
      case _ => exact absurd h (by simp)
  · exact decodeBlock4_lt h

/-- Every byte output by the Base64 decoder is a byte value. -/
theorem base64DecodeChars_lt :
    ∀ (cs : List Char) (l : List Nat), base64DecodeChars cs = some l → ∀ b ∈ l, b < 256
  | [], l, h => by
    injection h with h
    simp [← h]
  | c0 :: c1 :: c2 :: c3 :: rest, l, h => by
    unfold base64DecodeChars at h
    split at h
    · exact decodeFinal_lt h
    · split at h
      case _ bs tail hbs htail =>
        injection h with h
        intro b hb
        rw [← h] at hb
        rcases List.mem_append.mp hb with hb | hb
        · exact decodeBlock4_lt hbs b hb
        · exact base64DecodeChars_lt rest tail htail b hb
      case _ => exact absurd h (by simp)

/-- Every byte output by `base64::decode` is a byte value. -/
theorem base64Decode_lt (s : String) (l : List Nat) (h : base64Decode s = some l) :
    ∀ b ∈ l, b < 256 :=
  base64DecodeChars_lt s.data l h

/-- The error type of the library; only the `ProtocolError` variant is
reachable from this module (`result::WebSocketError`). -/
inductive WebSocketError where
  | ProtocolError (msg : String)
deriving DecidableEq

/-- `result::WebSocketResult`. -/
abbrev WebSocketResult (α : Type) := Except WebSocketError α

deriving instance DecidableEq for Except

/-- `WebSocketAccept([u8; 20])`: a Sec-WebSocket-Accept header value.
The fields beyond `bytes` record what the Rust type `[u8; 20]` enforces
by construction: exactly 20 entries, each one a byte. -/
structure WebSocketAccept where
  bytes : List Nat
  len_eq : bytes.length = 20
  bytes_lt : ∀ b ∈ bytes, b < 256

theorem WebSocketAccept.ext_bytes {t u : WebSocketAccept} (h : t.bytes = u.bytes) :
    t = u := by
  cases t
  cases u
  simp only at h
  subst h
  rfl

instance : DecidableEq WebSocketAccept := fun t u =>
  if h : t.bytes = u.bytes then isTrue (WebSocketAccept.ext_bytes h)
  else isFalse (fun he => h (congrArg WebSocketAccept.bytes he))

/-- `impl FromStr for WebSocketAccept::from_str`: Base64-decode the text,
check the length is exactly 20, and wrap the decoded bytes. -/
def WebSocketAccept.from_str (accept : String) : WebSocketResult WebSocketAccept :=
  match h : base64Decode accept with
  | some vec =>
    if hl : vec.length = 20 then
      Except.ok ⟨vec, hl, base64Decode_lt accept vec h⟩
    else
      Except.error (WebSocketError.ProtocolError "Sec-WebSocket-Accept must be 20 bytes")
  | none => Except.error (WebSocketError.ProtocolError "Invalid Sec-WebSocket-Accept")

/-- `WebSocketAccept::serialize`: the Base64 encoding of the 20 bytes. -/
def WebSocketAccept.serialize (t : WebSocketAccept) : String := base64Encode t.bytes

/-- The magic GUID fixed by RFC 6455 (`MAGIC_GUID` in the source). -/
def MAGIC_GUID : String := "258EAFA5-E914-47DA-95CA-C5AB0DC85B11"

/-- The `sha1` crate's incremental hasher, as the list of bytes fed so far. -/
structure Sha1 where
  fed : List Nat

/-- `Sha1::new()`. -/
def Sha1.mkNew : Sha1 := ⟨[]⟩

/-- `Sha1::update`: append bytes to the hashed stream. -/
def Sha1.update (s : Sha1) (bytes : List Nat) : Sha1 := ⟨s.fed ++ bytes⟩

/-- `Sha1::digest().bytes()`: the 20-byte digest of everything fed. -/
def Sha1.digestBytes (s : Sha1) : List Nat := sha1 s.fed

/-- Modelled from the spec: the external nonce type `header::WebSocketKey`
(not part of this core). The spec treats it as an opaque textual value of
which only the textual serialization `WebSocketKey::serialize` matters. -/
structure WebSocketKey where
  text : String

/-- Modelled from the spec: `WebSocketKey::serialize`, the nonce's textual
serialization, exactly the string the client transmitted. -/
def WebSocketKey.serialize (k : WebSocketKey) : String := k.text

/-- `WebSocketAccept::new`: concatenate the serialized nonce with the magic
GUID, hash with SHA-1 and keep the raw 20-byte digest. -/
def WebSocketAccept.new (key : WebSocketKey) : WebSocketAccept :=
  let serialized := key.serialize
  let concat_key := serialized ++ MAGIC_GUID
  let hasher := Sha1.update Sha1.mkNew (utf8Bytes concat_key)
  ⟨hasher.digestBytes, sha1_length _, sha1_lt _⟩

/-! ## Base64 round-trip -/

/-- Decoding a symbol produced by the encoder recovers the 6-bit value. -/
theorem b64Index_b64Char_eq : ∀ n < 64, b64Index (b64Char n) = some n := by decide

/-- The encoder never emits the pad character for a 6-bit value. -/
theorem b64Char_ne_pad : ∀ n < 64, b64Char n ≠ '=' := by decide

/-- The encoder emits at least one symbol for a nonempty input. -/
theorem base64EncodeChars_ne_nil : ∀ (l : List Nat), l ≠ [] → base64EncodeChars l ≠ []
  | [], h => absurd rfl h
  | [_], _ => by simp [base64EncodeChars]
  | [_, _], _ => by simp [base64EncodeChars]
  | _ :: _ :: _ :: _, _ => by simp [base64EncodeChars]

/-- Decoding an encoded full group of three bytes recovers the bytes. -/
theorem decodeBlock4_encode (a b c : Nat) (ha : a < 256) (hb : b < 256) (hc : c < 256) :
    decodeBlock4 (b64Char (a / 4)) (b64Char (a % 4 * 16 + b / 16))
      (b64Char (b % 16 * 4 + c / 64)) (b64Char (c % 64)) = some [a, b, c] := by
  have h0 : a / 4 < 64 := by omega
  have h1 : a % 4 * 16 + b / 16 < 64 := by omega
  have h2 : b % 16 * 4 + c / 64 < 64 := by omega
  have h3 : c % 64 < 64 := by omega
  unfold decodeBlock4
  rw [b64Index_b64Char_eq _ h0, b64Index_b64Char_eq _ h1,
    b64Index_b64Char_eq _ h2, b64Index_b64Char_eq _ h3]
  simp only [Option.some.injEq, List.cons.injEq, and_true]
  omega

/-- Base64 round-trip on byte lists: decoding the encoding of any list of
bytes succeeds and returns the original list. -/
theorem base64_encode_decode :
    ∀ (l : List Nat), (∀ b ∈ l, b < 256) → base64DecodeChars (base64EncodeChars l) = some l
  | [], _ => rfl
  | [a], h => by
    have ha : a < 256 := h a (by simp)
    have h0 : a / 4 < 64 := by omega
    have h1 : a % 4 * 16 < 64 := by omega
    simp only [base64EncodeChars, base64DecodeChars, List.isEmpty_nil, if_true]
    unfold decodeFinal
    rw [if_pos rfl, if_pos rfl, b64Index_b64Char_eq _ h0, b64Index_b64Char_eq _ h1]
    simp only [Option.some.injEq, List.cons.injEq, and_true]
    omega
  | [a, b], h => by
    have ha : a < 256 := h a (by simp)
    have hb : b < 256 := h b (by simp)
    have h0 : a / 4 < 64 := by omega
    have h1 : a % 4 * 16 + b / 16 < 64 := by omega
    have h2 : b % 16 * 4 < 64 := by omega
    simp only [base64EncodeChars, base64DecodeChars, List.isEmpty_nil, if_true]
    unfold decodeFinal
    rw [if_pos rfl, if_neg (b64Char_ne_pad _ h2),
      b64Index_b64Char_eq _ h0, b64Index_b64Char_eq _ h1, b64Index_b64Char_eq _ h2]
    simp only [Option.some.injEq, List.cons.injEq, and_true]
    omega
  | a :: b :: c :: rest, h => by
    have ha : a < 256 := h a (by simp)
    have hb : b < 256 := h b (by simp)
    have hc : c < 256 := h c (by simp)
    have h3 : c % 64 < 64 := by omega
    by_cases hr : rest = []
    · subst hr
      simp only [base64EncodeChars, base64DecodeChars, List.isEmpty_nil, if_true]
      unfold decodeFinal
      rw [if_neg (b64Char_ne_pad _ h3)]
      exact decodeBlock4_encode a b c ha hb hc
    · have hrest : ∀ x ∈ rest, x < 256 := fun x hx => h x (by simp [hx])
      have ih := base64_encode_decode rest hrest
      have hne := base64EncodeChars_ne_nil rest hr
      simp only [base64EncodeChars, base64DecodeChars]
      rw [if_neg (by simpa using hne)]
      rw [decodeBlock4_encode a b c ha hb hc, ih]
      rfl

/-! ## Behaviour of `from_str` -/

/-- When decoding succeeds with a length other than 20, `from_str`
returns the wrong-length protocol error. -/
theorem from_str_length_error (s : String) (vec : List Nat)
    (hd : base64Decode s = some vec) (hl : vec.length ≠ 20) :
    WebSocketAccept.from_str s =
      Except.error (WebSocketError.ProtocolError "Sec-WebSocket-Accept must be 20 bytes") := by
  unfold WebSocketAccept.from_str
  split
  case _ vec2 heq =>
    rw [hd] at heq
    injection heq with heq
    subst heq
    rw [dif_neg hl]
  case _ heq =>
    rw [hd] at heq
    exact absurd heq (by simp)

/-- When decoding fails, `from_str` returns the invalid-value protocol
error. -/
theorem from_str_decode_error (s : String) (hd : base64Decode s = none) :
    WebSocketAccept.from_str s =
      Except.error (WebSocketError.ProtocolError "Invalid Sec-WebSocket-Accept") := by
  unfold WebSocketAccept.from_str
  split
  case _ vec2 heq =>
    rw [hd] at heq
    exact absurd heq (by simp)
  case _ => rfl

/-- When decoding succeeds with exactly 20 bytes, `from_str` returns a
token whose bytes are the decoded bytes, untransformed. -/
theorem from_str_ok (s : String) (vec : List Nat)
    (hd : base64Decode s = some vec) (hl : vec.length = 20) :
    WebSocketAccept.from_str s =
      Except.ok ⟨vec, hl, base64Decode_lt s vec hd⟩ := by
  unfold WebSocketAccept.from_str
  split
  case _ vec2 heq =>
    have hv : vec2 = vec := by
      rw [hd] at heq
      injection heq with heq
      exact heq.symm
    subst hv
    rw [dif_pos hl]
  case _ heq =>
    rw [hd] at heq
    exact absurd heq (by simp)

/-- Parsing the serialization of a token returns the token itself. -/
theorem from_str_serialize (t : WebSocketAccept) :
    WebSocketAccept.from_str t.serialize = Except.ok t := by
  have hdec : base64Decode t.serialize = some t.bytes := by
    unfold WebSocketAccept.serialize base64Decode base64Encode
    exact base64_encode_decode t.bytes t.bytes_lt
  rw [from_str_ok t.serialize t.bytes hdec t.len_eq]

/-! ## Claims -/

/-- C1: for every nonce, `WebSocketAccept::new` yields exactly the raw
20-byte SHA-1 digest of the UTF-8 bytes of the nonce's textual
serialization followed by the fixed magic GUID string (nonce first,
magic string second, no separator). -/
theorem claim_C1 (key : WebSocketKey) :
    (WebSocketAccept.new key).bytes =
      sha1 (utf8Bytes (key.serialize ++ "258EAFA5-E914-47DA-95CA-C5AB0DC85B11")) := rfl

theorem claim_C1_witness :
    (WebSocketAccept.new ⟨"abc"⟩).bytes =
      sha1 (utf8Bytes ((WebSocketKey.mk "abc").serialize ++
        "258EAFA5-E914-47DA-95CA-C5AB0DC85B11")) :=
  claim_C1 ⟨"abc"⟩

/-- C2: for every valid 20-byte token `t`, parsing the serialization of
`t` succeeds and yields a token equal to `t`. -/
theorem claim_C2 (t : WebSocketAccept) :
    WebSocketAccept.from_str t.serialize = Except.ok t :=
  from_str_serialize t

/-- A concrete 20-byte token (the bytes of `"a simple sampl nonce"`). -/
def sampleAccept : WebSocketAccept :=
  ⟨[97, 32, 115, 105, 109, 112, 108, 101, 32, 115, 97, 109, 112, 108, 32, 110, 111, 110, 99, 101],
   by decide, by decide⟩

theorem claim_C2_witness :
    WebSocketAccept.from_str sampleAccept.serialize = Except.ok sampleAccept :=
  claim_C2 sampleAccept

/-- C3: every input that Base64-decodes to a byte count other than 20
(fewer or more) makes `from_str` fail with the protocol error
"Sec-WebSocket-Accept must be 20 bytes". -/
theorem claim_C3 (s : String) (vec : List Nat)
    (hd : base64Decode s = some vec) (hl : vec.length ≠ 20) :
    WebSocketAccept.from_str s =
      Except.error (WebSocketError.ProtocolError "Sec-WebSocket-Accept must be 20 bytes") :=
  from_str_length_error s vec hd hl

theorem claim_C3_witness :
    base64Decode "Zm9v" = some [102, 111, 111] ∧
    [102, 111, 111].length ≠ 20 ∧
    WebSocketAccept.from_str "Zm9v" =
      Except.error (WebSocketError.ProtocolError "Sec-WebSocket-Accept must be 20 bytes") :=
  ⟨by decide, by decide, claim_C3 "Zm9v" [102, 111, 111] (by decide) (by decide)⟩

set_option maxRecDepth 100000 in
/-- C4: deriving from the RFC 6455 worked-example nonce
`dGhlIHNhbXBsZSBub25jZQ==` serializes to `s3pPLMBiTxaQ9kYGzzhZRbK+xOo=`. -/
theorem claim_C4 :
    (WebSocketAccept.new ⟨"dGhlIHNhbXBsZSBub25jZQ=="⟩).serialize =
      "s3pPLMBiTxaQ9kYGzzhZRbK+xOo=" := by decide

/-- C5: every input that is not valid Base64 makes `from_str` fail with
the protocol error "Invalid Sec-WebSocket-Accept", an error value
distinguishable from the wrong-length error. -/
theorem claim_C5 (s : String) (hd : base64Decode s = none) :
    WebSocketAccept.from_str s =
      Except.error (WebSocketError.ProtocolError "Invalid Sec-WebSocket-Accept") ∧
    WebSocketError.ProtocolError "Invalid Sec-WebSocket-Accept" ≠
      WebSocketError.ProtocolError "Sec-WebSocket-Accept must be 20 bytes" :=
  ⟨from_str_decode_error s hd, by decide⟩

theorem claim_C5_witness :
    base64Decode "!!!!" = none ∧
    (WebSocketAccept.from_str "!!!!" =
      Except.error (WebSocketError.ProtocolError "Invalid Sec-WebSocket-Accept") ∧
    WebSocketError.ProtocolError "Invalid Sec-WebSocket-Accept" ≠
      WebSocketError.ProtocolError "Sec-WebSocket-Accept must be 20 bytes") :=
  ⟨by decide, claim_C5 "!!!!" (by decide)⟩

/-- C6: every input that Base64-decodes to exactly 20 bytes parses
successfully, and the token's bytes are exactly the decoded bytes, with
no truncation, padding or other transformation. -/
theorem claim_C6 (s : String) (vec : List Nat)
    (hd : base64Decode s = some vec) (hl : vec.length = 20) :
    ∃ t : WebSocketAccept, WebSocketAccept.from_str s = Except.ok t ∧ t.bytes = vec :=
  ⟨⟨vec, hl, base64Decode_lt s vec hd⟩, from_str_ok s vec hd hl, rfl⟩

theorem claim_C6_witness :
    base64Decode "YSBzaW1wbGUgc2FtcGwgbm9uY2U=" =
      some [97, 32, 115, 105, 109, 112, 108, 101, 32, 115, 97, 109, 112, 108, 32,
        110, 111, 110, 99, 101] ∧
    ∃ t : WebSocketAccept,
      WebSocketAccept.from_str "YSBzaW1wbGUgc2FtcGwgbm9uY2U=" = Except.ok t ∧
      t.bytes = [97, 32, 115, 105, 109, 112, 108, 101, 32, 115, 97, 109, 112, 108, 32,
        110, 111, 110, 99, 101] :=
  ⟨by decide,
   claim_C6 "YSBzaW1wbGUgc2FtcGwgbm9uY2U="
     [97, 32, 115, 105, 109, 112, 108, 101, 32, 115, 97, 109, 112, 108, 32,
      110, 111, 110, 99, 101] (by decide) (by decide)⟩

/-- C7: every value of the `WebSocketAccept` type — however constructed —
holds exactly 20 bytes; no value with any other length exists. -/
theorem claim_C7 (t : WebSocketAccept) : t.bytes.length = 20 := t.len_eq

theorem claim_C7_witness : sampleAccept.bytes.length = 20 :=
  claim_C7 sampleAccept

/-- C8: equality of `WebSocketAccept` values is purely structural: two
tokens are equal iff their 20 underlying bytes are equal byte-for-byte,
independent of the construction path. -/
theorem claim_C8 (t u : WebSocketAccept) : t = u ↔ t.bytes = u.bytes :=
  ⟨fun h => congrArg WebSocketAccept.bytes h, WebSocketAccept.ext_bytes⟩

theorem claim_C8_witness : sampleAccept = sampleAccept ↔
    sampleAccept.bytes = sampleAccept.bytes :=
  claim_C8 sampleAccept sampleAccept

/-- C9: derivation is deterministic and total: two independent
derivations from the same nonce text produce identical tokens, and
derivation is a total function with no failure mode. -/
theorem claim_C9 (k1 k2 : WebSocketKey) (h : k1.serialize = k2.serialize) :
    WebSocketAccept.new k1 = WebSocketAccept.new k2 := by
  cases k1
  cases k2
  simp only [WebSocketKey.serialize] at h
  subst h
  rfl

theorem claim_C9_witness :
    (WebSocketKey.mk "nonce").serialize = (WebSocketKey.mk "nonce").serialize ∧
    WebSocketAccept.new ⟨"nonce"⟩ = WebSocketAccept.new ⟨"nonce"⟩ :=
  ⟨rfl, claim_C9 ⟨"nonce"⟩ ⟨"nonce"⟩ rfl⟩

/-- C10: the empty string is valid Base64 decoding to zero bytes, so
parsing it fails with the wrong-length error, not the malformed-encoding
error. -/
theorem claim_C10 :
    base64Decode "" = some [] ∧
    WebSocketAccept.from_str "" =
      Except.error (WebSocketError.ProtocolError "Sec-WebSocket-Accept must be 20 bytes") ∧
    WebSocketError.ProtocolError "Sec-WebSocket-Accept must be 20 bytes" ≠
      WebSocketError.ProtocolError "Invalid Sec-WebSocket-Accept" :=
  ⟨rfl, rfl, by decide⟩

end WebSocket
